import Mathlib

/-!
Verification of the vehicle-proxy (`UAS`) specification against the source of
`src/src/uas/UAS.h`.  The source file is the class declaration only: it fixes the
data model (fields, enumerations, signatures) but contains no method bodies, so
every behavioural operation below is modelled from the specification text and
says so in its doc comment.  Voltages, set-points and percentages are modelled
as exact rationals (`ℚ`).
-/

namespace UASModel

/-- Battery chemistry enumeration, transcribed from `UAS::BatteryType`
(src/src/uas/UAS.h lines 53-60). -/
inductive BatteryType
  | NICD
  | NIMH
  | LIION
  | LIPOLY
  | LIFE
  | AGZN
deriving DecidableEq, Repr

/-- Communication-health states.  The source stores a `CommStatus` field
(src/src/uas/UAS.h line 85) whose enumeration is declared elsewhere; the state
names are those of spec section 4.2. -/
inductive CommStatus
  | Disconnected
  | Connecting
  | Connected
  | Degraded
deriving DecidableEq, Repr

/-- The vehicle-proxy state: the protected data members of class `UAS`
(src/src/uas/UAS.h lines 82-123), with machine floating types modelled as `ℚ`,
`QList` as `List`, and the `timeRemaining` sentinel as `Option`.  Links are
identified by numeric ids (spec section 9 models non-owning link references as
registry keys). -/
structure UAS where
  uasId : Int
  name : String
  startTime : Nat
  commStatus : CommStatus
  links : List Nat
  batteryType : BatteryType
  cells : Int
  unknownPackets : List Nat
  fullVoltage : ℚ
  emptyVoltage : ℚ
  startVoltage : ℚ
  currentVoltage : ℚ
  lpVoltage : ℚ
  timeRemaining : Option ℚ
  mode : Int
  status : Int
  controlRollManual : Bool
  controlPitchManual : Bool
  controlYawManual : Bool
  controlThrustManual : Bool
  manualRollAngle : ℚ
  manualPitchAngle : ℚ
  manualYawAngle : ℚ
  manualThrust : ℚ
  receiveDropRate : ℚ
  sendDropRate : ℚ
deriving DecidableEq, Repr

/-- Modelled from the spec: the body of `UAS::getChargeLevel` is not in src
(declaration only, src/src/uas/UAS.h line 130).  Spec section 4.3: linear
interpolation of the filtered voltage between `emptyVoltage` (0%) and
`fullVoltage` (100%), clamped to [0,100]. -/
def getChargeLevel (u : UAS) : ℚ :=
  max 0 (min 100 (100 * (u.lpVoltage - u.emptyVoltage) / (u.fullVoltage - u.emptyVoltage)))

/-- A concrete vehicle state used to instantiate theorems: a 3-cell Li-poly
battery with the spec's per-cell thresholds 4.2 V (full) and 3.5 V (empty),
so `fullVoltage = 63/5 = 12.6` and `emptyVoltage = 21/2 = 10.5`. -/
def sampleUAS : UAS :=
  { uasId := 42
    name := "bravo"
    startTime := 0
    commStatus := CommStatus.Disconnected
    links := [1, 2]
    batteryType := BatteryType.LIPOLY
    cells := 3
    unknownPackets := []
    fullVoltage := 63/5
    emptyVoltage := 21/2
    startVoltage := 62/5
    currentVoltage := 123/10
    lpVoltage := 123/10
    timeRemaining := none
    mode := 0
    status := 0
    controlRollManual := false
    controlPitchManual := false
    controlYawManual := false
    controlThrustManual := false
    manualRollAngle := 0
    manualPitchAngle := 0
    manualYawAngle := 0
    manualThrust := 0
    receiveDropRate := 0
    sendDropRate := 0 }

/-- C1: for every battery configuration with `cellCount ≥ 1` and
`fullVoltagePerCell > emptyVoltagePerCell`, `getChargeLevel` is in [0,100],
and it is monotone in the filtered voltage: for `v1 ≤ v2` the charge level at
`v1` is at most the charge level at `v2`. -/
theorem getChargeLevel_inRange_and_mono (u : UAS) (n : Int) (fpc epc : ℚ)
    (hn : 1 ≤ n) (hpc : epc < fpc)
    (hf : u.fullVoltage = n * fpc) (he : u.emptyVoltage = n * epc) :
    (0 ≤ getChargeLevel u ∧ getChargeLevel u ≤ 100) ∧
    ∀ v1 v2 : ℚ, v1 ≤ v2 →
      getChargeLevel { u with lpVoltage := v1 } ≤ getChargeLevel { u with lpVoltage := v2 } := by
  have hd : 0 < u.fullVoltage - u.emptyVoltage := by
    rw [hf, he, ← mul_sub]
    have h1 : (1 : ℚ) ≤ (n : ℚ) := by exact_mod_cast hn
    exact mul_pos (lt_of_lt_of_le one_pos h1) (sub_pos.mpr hpc)
  refine ⟨⟨le_max_left 0 _, max_le (by norm_num) (min_le_left _ _)⟩, ?_⟩
  intro v1 v2 h12
  have hnum : 100 * (v1 - u.emptyVoltage) ≤ 100 * (v2 - u.emptyVoltage) := by
    have : v1 - u.emptyVoltage ≤ v2 - u.emptyVoltage := sub_le_sub_right h12 _
    linarith
  have hq : 100 * (v1 - u.emptyVoltage) / (u.fullVoltage - u.emptyVoltage)
      ≤ 100 * (v2 - u.emptyVoltage) / (u.fullVoltage - u.emptyVoltage) :=
    (div_le_div_iff_of_pos_right hd).mpr hnum
  exact max_le_max (le_refl 0) (min_le_min (le_refl 100) hq)

/-- Witness for C1 at the concrete state `sampleUAS` (3 Li-poly cells with
per-cell thresholds 21/5 and 7/2, filtered voltages 11 and 12). -/
theorem getChargeLevel_inRange_and_mono_witness :
    ((0 ≤ getChargeLevel sampleUAS ∧ getChargeLevel sampleUAS ≤ 100) ∧
      ∀ v1 v2 : ℚ, v1 ≤ v2 →
        getChargeLevel { sampleUAS with lpVoltage := v1 }
          ≤ getChargeLevel { sampleUAS with lpVoltage := v2 }) ∧
    getChargeLevel { sampleUAS with lpVoltage := 11 }
      ≤ getChargeLevel { sampleUAS with lpVoltage := 12 } := by
  have h := getChargeLevel_inRange_and_mono sampleUAS 3 (21/5) (7/2)
    (by norm_num) (by norm_num) (by norm_num [sampleUAS]) (by norm_num [sampleUAS])
  exact ⟨h, h.2 11 12 (by norm_num)⟩

/-- C2 counterexample: with the spec's example configuration (3 cells,
full 4.2 V/cell, empty 3.5 V/cell) and the filtered voltage at the fed sample
value 12.3 — the most favourable case, full filter convergence — the linear
interpolation of spec section 4.3 gives `600/7 ≈ 85.7%`, strictly below the
claimed 95–100% band. -/
theorem chargeLevel_example_counterexample :
    getChargeLevel { sampleUAS with lpVoltage := 123/10 } = 600/7 ∧
    ¬ (95 ≤ getChargeLevel { sampleUAS with lpVoltage := 123/10 }) := by
  have h : getChargeLevel { sampleUAS with lpVoltage := 123/10 } = 600/7 := by
    norm_num [getChargeLevel, sampleUAS, min_def, max_def]
  exact ⟨h, by rw [h]; norm_num⟩

/-- C2 amended: with the spec's example configuration, filtered voltage 12.3
yields charge `600/7 ≈ 85.7%` (strictly between 0 and 100 but below 95),
10.8 yields `100/7 ≈ 14.3%`, and 10.5 = 3·3.5 yields exactly 0%. -/
theorem chargeLevel_example_amended :
    getChargeLevel { sampleUAS with lpVoltage := 123/10 } = 600/7 ∧
    getChargeLevel { sampleUAS with lpVoltage := 54/5 } = 100/7 ∧
    getChargeLevel { sampleUAS with lpVoltage := 21/2 } = 0 := by
  refine ⟨?_, ?_, ?_⟩ <;> norm_num [getChargeLevel, sampleUAS, min_def, max_def]

/-- Modelled from the spec: the body of the one-argument `UAS::filterVoltage(float)`
is not in src (declaration only, src/src/uas/UAS.h line 78).  Spec section 4.3: a
single-pole low-pass filter, `filteredVoltage := filteredVoltage·(1−α) + sample·α`,
with a fixed smoothing constant `α ∈ (0,1)` whose exact value the spec leaves
open; it is therefore a parameter here. -/
def filterVoltageSample (α : ℚ) (u : UAS) (value : ℚ) : UAS :=
  { u with lpVoltage := u.lpVoltage * (1 - α) + value * α }

/-- Modelled from the spec: the body of the zero-argument `UAS::filterVoltage()`
is not in src (declaration only, src/src/uas/UAS.h line 76).  Spec section 4.3:
the zero-argument accessor returns the current filtered value without adding a
sample. -/
def filterVoltage (u : UAS) : ℚ := u.lpVoltage

/-- Feeding `n` copies of the constant sample `v` through the low-pass filter. -/
def feedConstSamples (α v : ℚ) (u : UAS) : Nat → UAS
  | 0 => u
  | n + 1 => filterVoltageSample α (feedConstSamples α v u n) v

/-- The distance to a constant sample stream's value contracts geometrically. -/
lemma feedConstSamples_lpVoltage (α v : ℚ) (u : UAS) (n : Nat) :
    (feedConstSamples α v u n).lpVoltage - v = (1 - α) ^ n * (u.lpVoltage - v) := by
  induction n with
  | zero => simp [feedConstSamples]
  | succ n ih =>
      have h : (feedConstSamples α v u (n + 1)).lpVoltage
          = (feedConstSamples α v u n).lpVoltage * (1 - α) + v * α := rfl
      rw [h, pow_succ]
      linear_combination (1 - α) * ih

/-- C3: `filterVoltage(sample)` sets the stored filtered voltage to the convex
combination `filteredVoltage·(1−α) + sample·α` for the fixed `α ∈ (0,1)`; a
constant-value stream converges to that value within a bounded number of
samples (within any positive tolerance `ε`); once within tolerance, further
identical samples stay within tolerance; and the zero-argument accessor returns
the current filtered value without adding a sample. -/
theorem filterVoltage_spec (α : ℚ) (hα0 : 0 < α) (hα1 : α < 1) (u : UAS) (v ε : ℚ)
    (hε : 0 < ε) :
    ((filterVoltageSample α u v).lpVoltage = u.lpVoltage * (1 - α) + v * α)
    ∧ (∃ N, ∀ n, N ≤ n → |(feedConstSamples α v u n).lpVoltage - v| < ε)
    ∧ (|u.lpVoltage - v| ≤ ε → |(filterVoltageSample α u v).lpVoltage - v| ≤ ε)
    ∧ filterVoltage u = u.lpVoltage := by
  have hb0 : (0 : ℚ) ≤ 1 - α := by linarith
  have hb1 : (1 : ℚ) - α ≤ 1 := by linarith
  have hstep : (filterVoltageSample α u v).lpVoltage - v = (1 - α) * (u.lpVoltage - v) := by
    show u.lpVoltage * (1 - α) + v * α - v = (1 - α) * (u.lpVoltage - v)
    ring
  refine ⟨rfl, ?_, ?_, rfl⟩
  · rcases eq_or_ne u.lpVoltage v with hv | hv
    · refine ⟨0, fun n _ => ?_⟩
      rw [feedConstSamples_lpVoltage, hv, sub_self, mul_zero, abs_zero]
      exact hε
    · have hC : 0 < |u.lpVoltage - v| := abs_pos.mpr (sub_ne_zero.mpr hv)
      obtain ⟨N, hN⟩ := exists_pow_lt_of_lt_one (div_pos hε hC) (by linarith : (1 : ℚ) - α < 1)
      refine ⟨N, fun n hn => ?_⟩
      rw [feedConstSamples_lpVoltage, abs_mul, abs_pow, abs_of_nonneg hb0]
      calc (1 - α) ^ n * |u.lpVoltage - v|
          ≤ (1 - α) ^ N * |u.lpVoltage - v| :=
            mul_le_mul_of_nonneg_right (pow_le_pow_of_le_one hb0 hb1 hn) (le_of_lt hC)
        _ < ε := (lt_div_iff₀ hC).mp hN
  · intro hclose
    rw [hstep, abs_mul, abs_of_nonneg hb0]
    calc (1 - α) * |u.lpVoltage - v| ≤ 1 * |u.lpVoltage - v| :=
          mul_le_mul_of_nonneg_right hb1 (abs_nonneg _)
      _ = |u.lpVoltage - v| := one_mul _
      _ ≤ ε := hclose

/-- Witness for C3 at `α = 1/2`, the concrete state `sampleUAS`, constant sample
value 5 and tolerance 1/10. -/
theorem filterVoltage_spec_witness :
    ((filterVoltageSample (1/2) sampleUAS 5).lpVoltage
        = sampleUAS.lpVoltage * (1 - 1/2) + 5 * (1/2))
    ∧ (∃ N, ∀ n, N ≤ n → |(feedConstSamples (1/2) 5 sampleUAS n).lpVoltage - 5| < 1/10)
    ∧ (|sampleUAS.lpVoltage - 5| ≤ 1/10 →
        |(filterVoltageSample (1/2) sampleUAS 5).lpVoltage - 5| ≤ 1/10)
    ∧ filterVoltage sampleUAS = sampleUAS.lpVoltage :=
  filterVoltage_spec (1/2) (by norm_num) (by norm_num) sampleUAS 5 (1/10) (by norm_num)

/-- Modelled from the spec: per-cell charge thresholds for each chemistry.  The
source declares only the Li-poly pair (src/src/uas/UAS.h lines 62-63), as `int`
constants initialized with `4.2f` / `3.5f`, which C++ truncates to 4 / 3; spec
section 9 flags that truncation as a latent defect and sections 3 and 8 use the
intended 4.2 / 3.5, so the Li-poly row carries those values.  The remaining
chemistries' thresholds appear nowhere in src or the spec beyond the invariant
`fullVoltagePerCell > emptyVoltagePerCell`; representative values satisfy it. -/
def fullVoltagePerCell : BatteryType → ℚ
  | .NICD => 7/5
  | .NIMH => 7/5
  | .LIION => 41/10
  | .LIPOLY => 21/5
  | .LIFE => 18/5
  | .AGZN => 9/5

/-- Modelled from the spec: per-cell empty thresholds, companion of
`fullVoltagePerCell` (see its comment for provenance). -/
def emptyVoltagePerCell : BatteryType → ℚ
  | .NICD => 1
  | .NIMH => 1
  | .LIION => 33/10
  | .LIPOLY => 7/2
  | .LIFE => 14/5
  | .AGZN => 11/10

/-- Modelled from the spec: the body of `UAS::setBattery` is not in src
(declaration only, src/src/uas/UAS.h line 126).  Spec sections 4.3 and 7(c):
validate `cellCount ≥ 1` and reject otherwise, retaining the prior state and
reporting the failure to the caller (the `Bool` component, `false` meaning
configuration error); on success reconfigure the chemistry-derived
thresholds. -/
def setBattery (u : UAS) (t : BatteryType) (cellCount : Int) : UAS × Bool :=
  if cellCount < 1 then (u, false)
  else
    ({ u with batteryType := t
              cells := cellCount
              fullVoltage := cellCount * fullVoltagePerCell t
              emptyVoltage := cellCount * emptyVoltagePerCell t }, true)

/-- C4: `setBattery` with `cellCount < 1` reports a configuration error and
leaves the whole prior state — in particular the battery type, cell count and
full/empty thresholds — unchanged; with `cellCount ≥ 1` it succeeds and sets
the chemistry-derived thresholds. -/
theorem setBattery_spec (u : UAS) (t : BatteryType) (n : Int) :
    (n < 1 → (setBattery u t n).2 = false ∧ (setBattery u t n).1 = u)
    ∧ (1 ≤ n →
        (setBattery u t n).2 = true
        ∧ (setBattery u t n).1.batteryType = t
        ∧ (setBattery u t n).1.cells = n
        ∧ (setBattery u t n).1.fullVoltage = n * fullVoltagePerCell t
        ∧ (setBattery u t n).1.emptyVoltage = n * emptyVoltagePerCell t) := by
  refine ⟨fun h => ?_, fun h => ?_⟩
  · simp [setBattery, h]
  · have h' : ¬ n < 1 := by omega
    simp [setBattery, h']

/-- Witness for C4: rejected reconfiguration at cell count 0 and accepted
reconfiguration at cell count 3, on the concrete state `sampleUAS`. -/
theorem setBattery_spec_witness :
    ((setBattery sampleUAS BatteryType.NICD 0).2 = false
      ∧ (setBattery sampleUAS BatteryType.NICD 0).1 = sampleUAS)
    ∧ ((setBattery sampleUAS BatteryType.LIPOLY 3).2 = true
      ∧ (setBattery sampleUAS BatteryType.LIPOLY 3).1.batteryType = BatteryType.LIPOLY
      ∧ (setBattery sampleUAS BatteryType.LIPOLY 3).1.cells = 3
      ∧ (setBattery sampleUAS BatteryType.LIPOLY 3).1.fullVoltage
          = 3 * fullVoltagePerCell BatteryType.LIPOLY
      ∧ (setBattery sampleUAS BatteryType.LIPOLY 3).1.emptyVoltage
          = 3 * emptyVoltagePerCell BatteryType.LIPOLY) :=
  ⟨(setBattery_spec sampleUAS BatteryType.NICD 0).1 (by decide),
   (setBattery_spec sampleUAS BatteryType.LIPOLY 3).2 (by decide)⟩

/-- Modelled from the spec: the body of `UAS::calculateTimeRemaining` is not in
src (declaration only, src/src/uas/UAS.h line 128).  Spec sections 4.3 and 7(e):
when less than the configurable minimum elapsed time `minElapsed` has passed
since `startTime`, return the sentinel unknown (`none`); otherwise project the
voltage-drop rate from `startVoltage` to the current filtered voltage linearly
down to the empty threshold.  Time is in abstract ticks. -/
def calculateTimeRemaining (minElapsed now : Nat) (u : UAS) : Option ℚ :=
  if now - u.startTime < minElapsed then none
  else
    some ((u.lpVoltage - u.emptyVoltage) * ((now - u.startTime : Nat) : ℚ)
          / (u.startVoltage - u.lpVoltage))

/-- C5: `calculateTimeRemaining` returns the distinguished unknown sentinel
(`none`) whenever less than the minimum elapsed time has passed since
`startTime`; with enough elapsed time it returns the linear projection of the
observed voltage-drop rate to the empty threshold; and at the very first
instant (`now = startTime`, a single sample) it never fabricates a numeric
estimate. -/
theorem calculateTimeRemaining_spec (minElapsed now : Nat) (u : UAS) :
    (now - u.startTime < minElapsed → calculateTimeRemaining minElapsed now u = none)
    ∧ (minElapsed ≤ now - u.startTime →
        calculateTimeRemaining minElapsed now u
          = some ((u.lpVoltage - u.emptyVoltage) * ((now - u.startTime : Nat) : ℚ)
                  / (u.startVoltage - u.lpVoltage)))
    ∧ (0 < minElapsed → calculateTimeRemaining minElapsed u.startTime u = none) := by
  refine ⟨fun h => ?_, fun h => ?_, fun h => ?_⟩
  · simp [calculateTimeRemaining, h]
  · have h' : ¬ now - u.startTime < minElapsed := by omega
    simp [calculateTimeRemaining, h']
  · have h' : u.startTime - u.startTime < minElapsed := by omega
    simp [calculateTimeRemaining, h']
    omega

/-- Witness for C5 on `sampleUAS` with minimum elapsed time 10: at tick 5 the
estimate is unknown, at tick 20 it is the linear projection, and at the start
tick it is unknown. -/
theorem calculateTimeRemaining_spec_witness :
    calculateTimeRemaining 10 5 sampleUAS = none
    ∧ calculateTimeRemaining 10 20 sampleUAS
        = some ((sampleUAS.lpVoltage - sampleUAS.emptyVoltage)
                * ((20 - sampleUAS.startTime : Nat) : ℚ)
                / (sampleUAS.startVoltage - sampleUAS.lpVoltage))
    ∧ calculateTimeRemaining 10 sampleUAS.startTime sampleUAS = none :=
  ⟨(calculateTimeRemaining_spec 10 5 sampleUAS).1 (by decide),
   (calculateTimeRemaining_spec 10 20 sampleUAS).2.1 (by decide),
   (calculateTimeRemaining_spec 10 0 sampleUAS).2.2 (by decide)⟩

/-- Message kinds the modelled proxy understands, plus unrecognized kinds
carried by their numeric message-type id.  The source consumes decoded
`mavlink_message_t` records (src/src/uas/UAS.h line 170); the spec (section 4.2)
fixes only that a discriminant selects an update routine and that kinds without
a routine are recorded as unknown. -/
inductive MsgKind
  | heartbeat
  | sysStatus (mode status : Int)
  | unknownKind (id : Nat)
deriving DecidableEq, Repr

/-- A decoded inbound message: declared source system id plus kind. -/
structure Msg where
  sysid : Int
  kind : MsgKind
deriving DecidableEq, Repr

/-- Set insertion into the unknown-packet list: append only if absent. -/
def insertUnknown (ps : List Nat) (id : Nat) : List Nat :=
  if id ∈ ps then ps else ps ++ [id]

/-- The inserted id is a member afterwards. -/
lemma insertUnknown_mem (ps : List Nat) (id : Nat) : id ∈ insertUnknown ps id := by
  by_cases h : id ∈ ps <;> simp [insertUnknown, h]

/-- Inserting an id already present changes nothing. -/
lemma insertUnknown_of_mem {ps : List Nat} {id : Nat} (h : id ∈ ps) :
    insertUnknown ps id = ps := by
  simp [insertUnknown, h]

/-- The unknown set only grows under insertion. -/
lemma subset_insertUnknown (ps : List Nat) (j : Nat) : ps ⊆ insertUnknown ps j := by
  by_cases h : j ∈ ps
  · rw [insertUnknown_of_mem h]
    exact fun x hx => hx
  · unfold insertUnknown
    rw [if_neg h]
    exact List.subset_append_left _ _

/-- Modelled from the spec: the body of `UAS::receiveMessage` is not in src
(declaration only, src/src/uas/UAS.h line 170).  Spec sections 4.2 and 7(a)-(b):
a message whose source id differs from this vehicle's id is ignored; a known
kind updates its fields; an unrecognized kind is inserted into the unknown set
and otherwise discarded, and never fails (the function is total).  The
comm-status liveness machine of spec section 4.2 is modelled separately below
by `commStep`. -/
def receiveMessage (u : UAS) (m : Msg) : UAS :=
  if m.sysid ≠ u.uasId then u
  else
    match m.kind with
    | .heartbeat => u
    | .sysStatus mo st => { u with mode := mo, status := st }
    | .unknownKind id => { u with unknownPackets := insertUnknown u.unknownPackets id }

/-- C8: receiving a message of an unrecognized kind changes nothing but the
unknown-kind set (expressed by the structure-update equality); a kind not seen
before appends exactly one entry, a repeat leaves the set unchanged (so the
repeated call is idempotent), and for every message the set only grows, never
shrinks. -/
theorem receiveMessage_unknown_spec (u : UAS) (id : Nat) :
    (receiveMessage u ⟨u.uasId, MsgKind.unknownKind id⟩
        = { u with unknownPackets := insertUnknown u.unknownPackets id })
    ∧ (id ∉ u.unknownPackets →
        insertUnknown u.unknownPackets id = u.unknownPackets ++ [id])
    ∧ (id ∈ u.unknownPackets → insertUnknown u.unknownPackets id = u.unknownPackets)
    ∧ id ∈ insertUnknown u.unknownPackets id
    ∧ (receiveMessage (receiveMessage u ⟨u.uasId, MsgKind.unknownKind id⟩)
          ⟨u.uasId, MsgKind.unknownKind id⟩
        = receiveMessage u ⟨u.uasId, MsgKind.unknownKind id⟩)
    ∧ ∀ m : Msg, u.unknownPackets ⊆ (receiveMessage u m).unknownPackets := by
  have hb1 : receiveMessage u ⟨u.uasId, MsgKind.unknownKind id⟩
      = { u with unknownPackets := insertUnknown u.unknownPackets id } := by
    simp [receiveMessage]
  have hb2 : receiveMessage { u with unknownPackets := insertUnknown u.unknownPackets id }
        ⟨u.uasId, MsgKind.unknownKind id⟩
      = { u with unknownPackets := insertUnknown (insertUnknown u.unknownPackets id) id } := by
    simp [receiveMessage]
  refine ⟨hb1, fun h => ?_, fun h => insertUnknown_of_mem h,
    insertUnknown_mem _ _, ?_, fun m => ?_⟩
  · simp [insertUnknown, h]
  · rw [hb1, hb2, insertUnknown_of_mem (insertUnknown_mem u.unknownPackets id)]
  · by_cases hs : m.sysid ≠ u.uasId
    · have hid : receiveMessage u m = u := by simp [receiveMessage, hs]
      rw [hid]
      exact fun x hx => hx
    · cases hk : m.kind with
      | heartbeat =>
          have hid : receiveMessage u m = u := by simp [receiveMessage, hs, hk]
          rw [hid]
          exact fun x hx => hx
      | sysStatus mo st =>
          have hid : receiveMessage u m = { u with mode := mo, status := st } := by
            simp [receiveMessage, hs, hk]
          rw [hid]
          exact fun x hx => hx
      | unknownKind j =>
          have hid : receiveMessage u m
              = { u with unknownPackets := insertUnknown u.unknownPackets j } := by
            simp [receiveMessage, hs, hk]
          rw [hid]
          exact subset_insertUnknown u.unknownPackets j

/-- Witness for C8 on `sampleUAS` (empty unknown set) with unknown kind 99:
the first receipt appends 99, the second changes nothing. -/
theorem receiveMessage_unknown_spec_witness :
    (receiveMessage sampleUAS ⟨sampleUAS.uasId, MsgKind.unknownKind 99⟩
        = { sampleUAS with
              unknownPackets := insertUnknown sampleUAS.unknownPackets 99 })
    ∧ insertUnknown sampleUAS.unknownPackets 99 = sampleUAS.unknownPackets ++ [99]
    ∧ (receiveMessage (receiveMessage sampleUAS ⟨sampleUAS.uasId, MsgKind.unknownKind 99⟩)
          ⟨sampleUAS.uasId, MsgKind.unknownKind 99⟩
        = receiveMessage sampleUAS ⟨sampleUAS.uasId, MsgKind.unknownKind 99⟩) :=
  ⟨(receiveMessage_unknown_spec sampleUAS 99).1,
   (receiveMessage_unknown_spec sampleUAS 99).2.1 (by decide),
   (receiveMessage_unknown_spec sampleUAS 99).2.2.2.2.1⟩

/-- Modelled from the spec: the body of `UAS::isAuto` is not in src (declaration
only, src/src/uas/UAS.h line 134).  Spec section 4.4: autonomous exactly when
all four axes are non-manual. -/
def isAuto (u : UAS) : Bool :=
  !u.controlRollManual && !u.controlPitchManual && !u.controlYawManual
    && !u.controlThrustManual

/-- Modelled from the spec: the body of `UAS::setManualControlCommands` is not
in src (declaration only, src/src/uas/UAS.h line 162).  Spec section 4.4:
update all four set-points and mark all four manual flags true, as a unit. -/
def setManualControlCommands (u : UAS) (roll pitch yaw thrust : ℚ) : UAS :=
  { u with controlRollManual := true, controlPitchManual := true,
           controlYawManual := true, controlThrustManual := true,
           manualRollAngle := roll, manualPitchAngle := pitch,
           manualYawAngle := yaw, manualThrust := thrust }

/-- Modelled from the spec: the body of `UAS::addLink` is not in src
(declaration only, src/src/uas/UAS.h line 167).  Spec section 4.1: register a
non-owning link reference; duplicate registration is idempotent. -/
def addLink (u : UAS) (l : Nat) : UAS :=
  { u with links := if l ∈ u.links then u.links else u.links ++ [l] }

/-- The modelled mutating operations of the proxy, used to express which states
are reachable from a given state. -/
inductive Op
  | recv (m : Msg)
  | manual (roll pitch yaw thrust : ℚ)
  | battery (t : BatteryType) (n : Int)
  | filterSample (α v : ℚ)
  | registerLink (l : Nat)

/-- Interpretation of one modelled operation on the proxy state. -/
def applyOp (op : Op) (u : UAS) : UAS :=
  match op with
  | .recv m => receiveMessage u m
  | .manual r p y t => setManualControlCommands u r p y t
  | .battery t n => (setBattery u t n).1
  | .filterSample α v => filterVoltageSample α u v
  | .registerLink l => addLink u l

/-- Running a sequence of modelled operations. -/
def runOps (u : UAS) (ops : List Op) : UAS :=
  ops.foldl (fun s op => applyOp op s) u

/-- The four manual-control flags agree (all set or all clear): no state in
which only some axes reflect a manual input. -/
def flagsUnified (u : UAS) : Prop :=
  u.controlRollManual = u.controlPitchManual
  ∧ u.controlPitchManual = u.controlYawManual
  ∧ u.controlYawManual = u.controlThrustManual

/-- A state whose four manual flags equal those of a flag-agreeing state also
has agreeing flags. -/
lemma flagsUnified_of_flagsEq {u w : UAS}
    (h1 : w.controlRollManual = u.controlRollManual)
    (h2 : w.controlPitchManual = u.controlPitchManual)
    (h3 : w.controlYawManual = u.controlYawManual)
    (h4 : w.controlThrustManual = u.controlThrustManual)
    (h : flagsUnified u) : flagsUnified w :=
  ⟨by rw [h1, h2]; exact h.1, by rw [h2, h3]; exact h.2.1, by rw [h3, h4]; exact h.2.2⟩

/-- Inbound message handling never touches the manual-control flags. -/
lemma receiveMessage_flags (u : UAS) (m : Msg) :
    (receiveMessage u m).controlRollManual = u.controlRollManual
    ∧ (receiveMessage u m).controlPitchManual = u.controlPitchManual
    ∧ (receiveMessage u m).controlYawManual = u.controlYawManual
    ∧ (receiveMessage u m).controlThrustManual = u.controlThrustManual := by
  by_cases hs : m.sysid ≠ u.uasId
  · simp [receiveMessage, hs]
  · cases hk : m.kind <;> simp [receiveMessage, hs, hk]

/-- Battery reconfiguration never touches the manual-control flags. -/
lemma setBattery_flags (u : UAS) (t : BatteryType) (n : Int) :
    ((setBattery u t n).1).controlRollManual = u.controlRollManual
    ∧ ((setBattery u t n).1).controlPitchManual = u.controlPitchManual
    ∧ ((setBattery u t n).1).controlYawManual = u.controlYawManual
    ∧ ((setBattery u t n).1).controlThrustManual = u.controlThrustManual := by
  by_cases hn : n < 1 <;> simp [setBattery, hn]

/-- Every modelled operation preserves agreement of the manual flags. -/
lemma applyOp_flagsUnified (op : Op) (u : UAS) (h : flagsUnified u) :
    flagsUnified (applyOp op u) := by
  cases op with
  | recv m =>
      obtain ⟨h1, h2, h3, h4⟩ := receiveMessage_flags u m
      exact flagsUnified_of_flagsEq h1 h2 h3 h4 h
  | manual r p y t => exact ⟨rfl, rfl, rfl⟩
  | battery t n =>
      obtain ⟨h1, h2, h3, h4⟩ := setBattery_flags u t n
      exact flagsUnified_of_flagsEq h1 h2 h3 h4 h
  | filterSample α v => exact flagsUnified_of_flagsEq rfl rfl rfl rfl h
  | registerLink l => exact flagsUnified_of_flagsEq rfl rfl rfl rfl h

/-- Flag agreement is invariant under any sequence of modelled operations. -/
lemma runOps_flagsUnified (ops : List Op) :
    ∀ u : UAS, flagsUnified u → flagsUnified (runOps u ops) := by
  induction ops with
  | nil => exact fun u h => h
  | cons op ops ih => exact fun u h => ih (applyOp op u) (applyOp_flagsUnified op u h)

/-- C7: after `setManualControlCommands`, `isAuto` is false, all four manual
flags are set and all four set-points equal the call's arguments; starting from
a state whose flags agree, no sequence of modelled operations reaches a state
in which only some of the four axes are marked manual; and `isAuto` is true
exactly when all four axes are non-manual. -/
theorem setManualControlCommands_spec (u : UAS) (r p y t : ℚ) :
    isAuto (setManualControlCommands u r p y t) = false
    ∧ ((setManualControlCommands u r p y t).controlRollManual = true
       ∧ (setManualControlCommands u r p y t).controlPitchManual = true
       ∧ (setManualControlCommands u r p y t).controlYawManual = true
       ∧ (setManualControlCommands u r p y t).controlThrustManual = true)
    ∧ ((setManualControlCommands u r p y t).manualRollAngle = r
       ∧ (setManualControlCommands u r p y t).manualPitchAngle = p
       ∧ (setManualControlCommands u r p y t).manualYawAngle = y
       ∧ (setManualControlCommands u r p y t).manualThrust = t)
    ∧ (∀ ops : List Op, flagsUnified u → flagsUnified (runOps u ops))
    ∧ (∀ w : UAS, isAuto w = true ↔
        (w.controlRollManual = false ∧ w.controlPitchManual = false
         ∧ w.controlYawManual = false ∧ w.controlThrustManual = false)) := by
  refine ⟨rfl, ⟨rfl, rfl, rfl, rfl⟩, ⟨rfl, rfl, rfl, rfl⟩,
    fun ops h => runOps_flagsUnified ops u h, fun w => ?_⟩
  simp [isAuto, and_assoc]

/-- Witness for C7 on `sampleUAS` (whose flags agree, all clear) with the
manual command (1, 2, 3, 1/2), run as an operation sequence. -/
theorem setManualControlCommands_spec_witness :
    isAuto (setManualControlCommands sampleUAS 1 2 3 (1/2)) = false
    ∧ (setManualControlCommands sampleUAS 1 2 3 (1/2)).manualThrust = 1/2
    ∧ flagsUnified (runOps sampleUAS [Op.manual 1 2 3 (1/2)]) :=
  ⟨(setManualControlCommands_spec sampleUAS 1 2 3 (1/2)).1,
   (setManualControlCommands_spec sampleUAS 1 2 3 (1/2)).2.2.1.2.2.2,
   (setManualControlCommands_spec sampleUAS 1 2 3 (1/2)).2.2.2.1
     [Op.manual 1 2 3 (1/2)] ⟨rfl, rfl, rfl⟩⟩

/-- Outcome of a broadcast send: the per-link attempts in registry order and
the overall success flag reported to the caller. -/
structure BroadcastOutcome where
  attempts : List (Nat × Bool)
  ok : Bool
deriving DecidableEq, Repr

/-- Modelled from the spec: the body of the broadcast
`UAS::sendMessage(mavlink_message_t)` is not in src (declaration only,
src/src/uas/UAS.h line 175).  Spec sections 4.5, 6 and 7(d): transmit
independently on every currently registered link, one attempt per link, a
per-link failure not aborting the remaining links (`send` is the link-layer
capability, `true` meaning delivered); an empty link set performs no send and
the failure is reported to the caller. -/
def sendMessageAll (send : Nat → Bool) (u : UAS) : BroadcastOutcome :=
  { attempts := u.links.map (fun l => (l, send l)), ok := !u.links.isEmpty }

/-- The attempted-link list of a broadcast is exactly the registry. -/
lemma map_fst_attempts (send : Nat → Bool) (ls : List Nat) :
    (ls.map (fun l => (l, send l))).map Prod.fst = ls := by
  induction ls with
  | nil => rfl
  | cons a ls ih => simp [ih]

/-- C6: the broadcast performs exactly one send attempt per currently
registered link — in particular, with links {A, B} exactly one attempt on each,
whatever the per-link outcomes — and with no links it performs no attempt and
reports failure. -/
theorem sendMessageAll_spec (send : Nat → Bool) (u : UAS) :
    (sendMessageAll send u).attempts.map Prod.fst = u.links
    ∧ (u.links = [] →
        (sendMessageAll send u).attempts = [] ∧ (sendMessageAll send u).ok = false)
    ∧ (u.links ≠ [] → (sendMessageAll send u).ok = true)
    ∧ ∀ a b : Nat, u.links = [a, b] →
        (sendMessageAll send u).attempts = [(a, send a), (b, send b)] := by
  refine ⟨map_fst_attempts send u.links, fun h => ?_, fun h => ?_, fun a b h => ?_⟩
  · simp [sendMessageAll, h]
  · simp [sendMessageAll, h]
  · simp [sendMessageAll, h]

/-- Witness for C6: on `sampleUAS` (links {1, 2}) with a send capability that
fails on every link, both links still get exactly one attempt and the call
reports overall success of dispatch; with the link set emptied, no attempt is
made and failure is reported. -/
theorem sendMessageAll_spec_witness :
    (sendMessageAll (fun _ => false) sampleUAS).attempts = [(1, false), (2, false)]
    ∧ ((sendMessageAll (fun _ => false) { sampleUAS with links := [] }).attempts = []
        ∧ (sendMessageAll (fun _ => false) { sampleUAS with links := [] }).ok = false)
    ∧ (sendMessageAll (fun _ => false) sampleUAS).ok = true :=
  ⟨(sendMessageAll_spec (fun _ => false) sampleUAS).2.2.2 1 2 rfl,
   (sendMessageAll_spec (fun _ => false) { sampleUAS with links := [] }).2.1 rfl,
   (sendMessageAll_spec (fun _ => false) sampleUAS).2.2.1 (by decide)⟩

/-- One observable state of the modelled comm-status machine: the status, the
time of the last received message, and the current run of consecutive
heartbeats. -/
structure CommTrack where
  status : CommStatus
  lastMsgTime : Nat
  hbRun : Nat
deriving DecidableEq, Repr

/-- Events driving the comm-status machine: a message received at a time (the
flag marks heartbeat kind), passage of time observed at a tick, and the link
set becoming empty. -/
inductive CommEvent
  | msg (t : Nat) (hb : Bool)
  | tick (t : Nat)
  | linksEmptied
deriving DecidableEq, Repr

/-- Modelled from the spec: the timeout rules of the comm-status machine of
spec section 4.2 (driven by the body of `UAS::receiveMessage` and its timers,
none of which are in src; the header only stores `commStatus`,
src/src/uas/UAS.h line 85).  At observation time `t`: a gap longer than the
timeout multiple `T` of the expected heartbeat interval `I` disconnects from
every state; a heartbeat overdue by more than one interval degrades a
connection. -/
def commTimeout (I T : Nat) (t : Nat) (s : CommTrack) : CommTrack :=
  if T * I < t - s.lastMsgTime then
    { s with status := CommStatus.Disconnected, hbRun := 0 }
  else if s.status = CommStatus.Connected ∧ I < t - s.lastMsgTime then
    { s with status := CommStatus.Degraded }
  else s

/-- Modelled from the spec: the message rules of the comm-status machine of
spec section 4.2.  Any message while `Disconnected` starts `Connecting`; `k`
consecutive heartbeats while `Connecting` reach `Connected`; heartbeat
resumption restores a `Degraded` connection. -/
def commReceive (k : Nat) (t : Nat) (hb : Bool) (s : CommTrack) : CommTrack :=
  match s.status with
  | CommStatus.Disconnected =>
      { status := CommStatus.Connecting, lastMsgTime := t, hbRun := if hb then 1 else 0 }
  | CommStatus.Connecting =>
      let run := if hb then s.hbRun + 1 else s.hbRun
      { status := if k ≤ run then CommStatus.Connected else CommStatus.Connecting,
        lastMsgTime := t, hbRun := run }
  | CommStatus.Connected => { s with lastMsgTime := t }
  | CommStatus.Degraded =>
      { status := if hb then CommStatus.Connected else CommStatus.Degraded,
        lastMsgTime := t, hbRun := s.hbRun }

/-- Modelled from the spec: one transition of the comm-status machine of spec
section 4.2, with parameters `I` (expected heartbeat interval), `T` (timeout
multiple) and `k` (consecutive heartbeats needed to connect).  A message first
applies the timeout rule at its arrival time and is then processed. -/
def commStep (I T k : Nat) (s : CommTrack) (e : CommEvent) : CommTrack :=
  match e with
  | .linksEmptied => { s with status := CommStatus.Disconnected, hbRun := 0 }
  | .tick t => commTimeout I T t s
  | .msg t hb => commReceive k t hb (commTimeout I T t s)

/-- Modelled from the spec: the machine's initial state is `Disconnected`
(spec section 4.2). -/
def commInit : CommTrack :=
  { status := CommStatus.Disconnected, lastMsgTime := 0, hbRun := 0 }

/-- Feeding `n` heartbeats, each exactly one expected interval after the
previous message. -/
def feedHeartbeats (I T k : Nat) : Nat → CommTrack → CommTrack
  | 0, s => s
  | n + 1, s => feedHeartbeats I T k n (commStep I T k s (.msg (s.lastMsgTime + I) true))

/-- A message arriving exactly one interval after the previous one triggers no
timeout rule. -/
lemma commTimeout_at_interval (I T : Nat) (hTI : I ≤ T * I) (s : CommTrack) :
    commTimeout I T (s.lastMsgTime + I) s = s := by
  have h1 : ¬ T * I < s.lastMsgTime + I - s.lastMsgTime := by omega
  have h2 : ¬ (s.status = CommStatus.Connected ∧ I < s.lastMsgTime + I - s.lastMsgTime) := by
    rintro ⟨_, h⟩
    omega
  unfold commTimeout
  rw [if_neg h1, if_neg h2]

/-- The timeout rule never leaves the `Disconnected` state. -/
lemma commTimeout_status_of_disconnected (I T t : Nat) (s : CommTrack)
    (hs : s.status = CommStatus.Disconnected) :
    (commTimeout I T t s).status = CommStatus.Disconnected := by
  unfold commTimeout
  split_ifs with h1 h2
  · rfl
  · rw [hs] at h2
    exact absurd h2.1 (by simp)
  · exact hs

/-- Heartbeats at the expected cadence keep an established connection. -/
lemma feedHeartbeats_connected (I T k : Nat) (hTI : I ≤ T * I) :
    ∀ (n : Nat) (s : CommTrack), s.status = CommStatus.Connected →
      (feedHeartbeats I T k n s).status = CommStatus.Connected := by
  intro n
  induction n with
  | zero => exact fun s hs => hs
  | succ n ih =>
      intro s hs
      have hstep : commStep I T k s (.msg (s.lastMsgTime + I) true)
          = { s with lastMsgTime := s.lastMsgTime + I } := by
        show commReceive k _ true (commTimeout I T _ s) = _
        rw [commTimeout_at_interval I T hTI s]
        simp [commReceive, hs]
      show (feedHeartbeats I T k n (commStep I T k s (.msg (s.lastMsgTime + I) true))).status
          = CommStatus.Connected
      rw [hstep]
      exact ih _ hs

/-- From `Connecting`, enough heartbeats at the expected cadence reach
`Connected`. -/
lemma feedHeartbeats_connecting (I T k : Nat) (hTI : I ≤ T * I) :
    ∀ (n : Nat) (s : CommTrack), s.status = CommStatus.Connecting →
      k ≤ s.hbRun + n → s.hbRun < k →
      (feedHeartbeats I T k n s).status = CommStatus.Connected := by
  intro n
  induction n with
  | zero =>
      intro s _ hk hlt
      omega
  | succ n ih =>
      intro s hs hk hlt
      have hstep : commStep I T k s (.msg (s.lastMsgTime + I) true)
          = { status := if k ≤ s.hbRun + 1 then CommStatus.Connected else CommStatus.Connecting,
              lastMsgTime := s.lastMsgTime + I, hbRun := s.hbRun + 1 } := by
        show commReceive k _ true (commTimeout I T _ s) = _
        rw [commTimeout_at_interval I T hTI s]
        simp [commReceive, hs]
      show (feedHeartbeats I T k n (commStep I T k s (.msg (s.lastMsgTime + I) true))).status
          = CommStatus.Connected
      rw [hstep]
      by_cases hck : k ≤ s.hbRun + 1
      · apply feedHeartbeats_connected I T k hTI n
        simp [hck]
      · apply ih
        · simp [hck]
        · simp only []
          omega
        · simp only []
          omega

/-- C9: the comm-status machine starts `Disconnected`; the first message moves
it to `Connecting`; from `Connecting`, a scripted sequence of heartbeats at the
expected interval reaches `Connected`; and from every state, observing a gap
longer than the timeout multiple of the expected interval — or the link set
becoming empty — drives it to `Disconnected`. -/
theorem commStatus_machine_spec (I T k : Nat) (hI : 1 ≤ I) (hT : 1 ≤ T) (hk : 1 ≤ k) :
    commInit.status = CommStatus.Disconnected
    ∧ (∀ (t : Nat) (hb : Bool),
        (commStep I T k commInit (.msg t hb)).status = CommStatus.Connecting)
    ∧ (∀ s : CommTrack, s.status = CommStatus.Connecting → s.hbRun < k →
        (feedHeartbeats I T k (k - s.hbRun) s).status = CommStatus.Connected)
    ∧ (∀ (s : CommTrack) (t : Nat), T * I < t - s.lastMsgTime →
        (commStep I T k s (.tick t)).status = CommStatus.Disconnected)
    ∧ (∀ s : CommTrack,
        (commStep I T k s .linksEmptied).status = CommStatus.Disconnected) := by
  have hTI : I ≤ T * I := by
    calc I = 1 * I := (one_mul I).symm
    _ ≤ T * I := Nat.mul_le_mul hT (le_refl I)
  refine ⟨rfl, fun t hb => ?_, fun s hs hlt => ?_, fun s t hgap => ?_, fun s => rfl⟩
  · show (commReceive k t hb (commTimeout I T t commInit)).status = _
    have hd : (commTimeout I T t commInit).status = CommStatus.Disconnected :=
      commTimeout_status_of_disconnected I T t commInit rfl
    simp [commReceive, hd]
  · exact feedHeartbeats_connecting I T k hTI (k - s.hbRun) s hs (by omega) hlt
  · show (commTimeout I T t s).status = _
    unfold commTimeout
    rw [if_pos hgap]

/-- Witness for C9 at interval 1, timeout multiple 3, two required heartbeats:
the first message connects a fresh machine towards `Connecting`, one further
scripted heartbeat from a `Connecting` state with one heartbeat banked reaches
`Connected`, and a 95-tick silence or losing all links disconnects a
`Connected` machine. -/
theorem commStatus_machine_spec_witness :
    commInit.status = CommStatus.Disconnected
    ∧ (commStep 1 3 2 commInit (.msg 5 true)).status = CommStatus.Connecting
    ∧ (feedHeartbeats 1 3 2 (2 - CommTrack.hbRun ⟨CommStatus.Connecting, 5, 1⟩)
          ⟨CommStatus.Connecting, 5, 1⟩).status = CommStatus.Connected
    ∧ (commStep 1 3 2 ⟨CommStatus.Connected, 5, 2⟩ (.tick 100)).status
        = CommStatus.Disconnected
    ∧ (commStep 1 3 2 ⟨CommStatus.Connected, 5, 2⟩ .linksEmptied).status
        = CommStatus.Disconnected := by
  have h := commStatus_machine_spec 1 3 2 (by decide) (by decide) (by decide)
  exact ⟨h.1, h.2.1 5 true, h.2.2.1 ⟨CommStatus.Connecting, 5, 1⟩ rfl (by decide),
    h.2.2.2.1 ⟨CommStatus.Connected, 5, 2⟩ 100 (by decide),
    h.2.2.2.2 ⟨CommStatus.Connected, 5, 2⟩⟩

/-- The high-level operator actions named by the claim, declared as slots in
src/src/uas/UAS.h lines 137-159. -/
inductive OperatorAction
  | launch
  | home
  | halt
  | go
  | emergencySTOP
  | emergencyKILL
  | shutdown
  | requestWaypoints
  | clearWaypointList
  | enable_motors
  | disable_motors
deriving DecidableEq, Repr

/-- Declared result type of an operator-action slot. -/
inductive SlotResult
  | noResult
  | boolResult
deriving DecidableEq, Repr

/-- Declared return type of each operator-action slot, transcribed from
src/src/uas/UAS.h: `bool emergencyKILL()` (line 149); every other action slot
is `void` (lines 138-159). -/
def declaredResult : OperatorAction → SlotResult
  | .emergencyKILL => .boolResult
  | _ => .noResult

/-- C10: among the declared high-level operator actions, `emergencyKILL` is the
only one whose slot returns a result (a boolean success flag); `launch`,
`home`, `halt`, `go`, `emergencySTOP`, `shutdown`, `requestWaypoints`,
`clearWaypointList`, `enable_motors` and `disable_motors` all return nothing,
so only the kill command's issuance is observable to the caller through a
return value. -/
theorem emergencyKILL_only_result :
    declaredResult OperatorAction.emergencyKILL = SlotResult.boolResult
    ∧ declaredResult OperatorAction.launch = SlotResult.noResult
    ∧ declaredResult OperatorAction.home = SlotResult.noResult
    ∧ declaredResult OperatorAction.halt = SlotResult.noResult
    ∧ declaredResult OperatorAction.go = SlotResult.noResult
    ∧ declaredResult OperatorAction.emergencySTOP = SlotResult.noResult
    ∧ declaredResult OperatorAction.shutdown = SlotResult.noResult
    ∧ declaredResult OperatorAction.requestWaypoints = SlotResult.noResult
    ∧ declaredResult OperatorAction.clearWaypointList = SlotResult.noResult
    ∧ declaredResult OperatorAction.enable_motors = SlotResult.noResult
    ∧ declaredResult OperatorAction.disable_motors = SlotResult.noResult := by
  decide

end UASModel
